import Mathlib

/-!
Verification of VideoInsightAI's pipeline/parsing logic.

The repository's sources available here are the React frontend
(`frontend/src/services/api.ts`, `App.tsx`, `VideoDetail.tsx`) and the
backend README.  The backend core itself (`backend/app/services.py`:
ResponseParser, PlaylistOrchestrator, TaskStore) is not present, so those
components are modelled from the specification; each such definition is
marked `Modelled from the spec:`.  Frontend functions (`getCategories`,
the status-polling handler, the `ProcessingStatus` schema) are embedded
from the TypeScript source.
-/

namespace VIA

/-- The opening brace character, written via its code point. -/
def lbrace : Char := Char.ofNat 123

/-- The closing brace character, written via its code point. -/
def rbrace : Char := Char.ofNat 125

/-- Whitespace characters recognised when trimming and when skipping
whitespace in JSON input (space, tab, newline, carriage return). -/
def isWsChar (c : Char) : Bool :=
  c = ' ' || c = '\t' || c = '\n' || c = '\r'

/-- Drop leading whitespace from a character list. -/
def skipWs : List Char → List Char
  | [] => []
  | c :: cs => if isWsChar c then skipWs cs else c :: cs

/-- Trim whitespace from both ends of a character list. -/
def trimL (cs : List Char) : List Char :=
  ((cs.dropWhile isWsChar).reverse.dropWhile isWsChar).reverse

/-- Lowercase every character of a list. -/
def toLowerL (cs : List Char) : List Char := cs.map Char.toLower

/-- Does the second list start with the first one? -/
def beginsWithL : List Char → List Char → Bool
  | [], _ => true
  | _ :: _, [] => false
  | p :: ps, c :: cs => p == c && beginsWithL ps cs

/-- Does the second list contain the first as a contiguous run? -/
def isSubL (pat : List Char) : List Char → Bool
  | [] => pat.isEmpty
  | c :: cs => beginsWithL pat (c :: cs) || isSubL pat cs

/-- Split a character list on a separator character; adjacent separators
produce empty groups, as JavaScript's `split` does. -/
def splitOn (sep : Char) : List Char → List (List Char)
  | [] => [[]]
  | c :: cs =>
    let r := splitOn sep cs
    if c = sep then [] :: r
    else
      match r with
      | [] => [[c]]
      | g :: gs => (c :: g) :: gs

/-- Split on commas, trim each item, and drop empty items. -/
def splitCommaTrimL (cs : List Char) : List (List Char) :=
  ((splitOn ',' cs).map trimL).filter (fun g => !g.isEmpty)

/-- Split a character list into lines (on newline characters). -/
def splitLines (cs : List Char) : List (List Char) := splitOn '\n' cs

/-- A dynamically-typed JavaScript value, as received from `JSON.parse`
or carried in an API response field of unknown runtime shape.  Numbers
keep their source lexeme; the claims under verification never depend on
JavaScript's numeric formatting. -/
inductive JsVal where
  | null : JsVal
  | undef : JsVal
  | bool : Bool → JsVal
  | num : String → JsVal
  | str : String → JsVal
  | arr : List JsVal → JsVal
  | obj : List (String × JsVal) → JsVal

mutual

/-- JavaScript's `String(v)` coercion: `String(null) = "null"`,
`String(undefined) = "undefined"`, arrays join their elements with commas
(with `null`/`undefined` elements becoming empty), objects print as
`[object Object]`. -/
def jsToString : JsVal → String
  | JsVal.null => "null"
  | JsVal.undef => "undefined"
  | JsVal.bool b => if b then "true" else "false"
  | JsVal.num raw => raw
  | JsVal.str s => s
  | JsVal.arr xs => String.intercalate "," (jsArrElems xs)
  | JsVal.obj _ => "[object Object]"

/-- Element strings for JavaScript's `Array.prototype.join`, where
`null` and `undefined` elements become the empty string. -/
def jsArrElems : List JsVal → List String
  | [] => []
  | JsVal.null :: vs => "" :: jsArrElems vs
  | JsVal.undef :: vs => "" :: jsArrElems vs
  | v :: vs => jsToString v :: jsArrElems vs

end

/-- JavaScript truthiness test (`!v` in the source).  Numeric falsiness
is decided on the stored lexeme; every numeric input reaches the same
result in `getCategories` either way. -/
def jsFalsy : JsVal → Bool
  | JsVal.null => true
  | JsVal.undef => true
  | JsVal.bool b => !b
  | JsVal.num raw => raw = "0" || raw = "-0" || raw = "NaN"
  | JsVal.str s => s.isEmpty
  | JsVal.arr _ => false
  | JsVal.obj _ => false

/-- Hexadecimal digit value, used for JSON `\uXXXX` escapes; decided on
the code point (48–57 digits, 97–102 lowercase, 65–70 uppercase). -/
def hexVal (c : Char) : Option Nat :=
  let n := c.toNat
  if 48 ≤ n && n ≤ 57 then some (n - 48)
  else if 97 ≤ n && n ≤ 102 then some (n - 87)
  else if 65 ≤ n && n ≤ 70 then some (n - 55)
  else none

/-- Parse the body of a JSON string after the opening quote, returning
the decoded characters and the input remaining after the closing quote.
Unterminated strings, bad escapes and raw control characters fail, as in
strict JSON. -/
def parseStringBody : List Char → Option (List Char × List Char)
  | [] => none
  | c :: cs =>
    if c = '"' then some ([], cs)
    else if c = '\\' then
      match cs with
      | [] => none
      | e :: cs1 =>
        if e = '"' then (parseStringBody cs1).map (fun p => ('"' :: p.1, p.2))
        else if e = '\\' then (parseStringBody cs1).map (fun p => ('\\' :: p.1, p.2))
        else if e = '/' then (parseStringBody cs1).map (fun p => ('/' :: p.1, p.2))
        else if e = 'b' then (parseStringBody cs1).map (fun p => (Char.ofNat 8 :: p.1, p.2))
        else if e = 'f' then (parseStringBody cs1).map (fun p => (Char.ofNat 12 :: p.1, p.2))
        else if e = 'n' then (parseStringBody cs1).map (fun p => ('\n' :: p.1, p.2))
        else if e = 'r' then (parseStringBody cs1).map (fun p => ('\r' :: p.1, p.2))
        else if e = 't' then (parseStringBody cs1).map (fun p => ('\t' :: p.1, p.2))
        else if e = 'u' then
          match cs1 with
          | a :: b :: c2 :: d :: cs2 =>
            match hexVal a, hexVal b, hexVal c2, hexVal d with
            | some ha, some hb, some hc, some hd =>
              (parseStringBody cs2).map
                (fun p => (Char.ofNat (((ha * 16 + hb) * 16 + hc) * 16 + hd) :: p.1, p.2))
            | _, _, _, _ => none
          | _ => none
        else none
    else if c.toNat < 32 then none
    else (parseStringBody cs).map (fun p => (c :: p.1, p.2))

/-- Take leading decimal digits. -/
def takeDigits (cs : List Char) : List Char × List Char :=
  cs.span Char.isDigit

/-- Parse a JSON number lexeme (sign, integer part, optional fraction,
optional exponent), returning the lexeme and the rest of the input. -/
def parseNumberLex (cs : List Char) : Option (List Char × List Char) :=
  let (sign, cs1) :=
    match cs with
    | '-' :: rest => (['-'], rest)
    | _ => (([] : List Char), cs)
  match cs1 with
  | [] => none
  | c :: _ =>
    if !c.isDigit then none
    else
      let (intPart, cs2) := takeDigits cs1
      let intOk := intPart.length = 1 || intPart.headD '0' ≠ '0'
      if !intOk then none
      else
        let (fracPart, cs3) :=
          match cs2 with
          | '.' :: rest =>
            let (ds, r) := takeDigits rest
            if ds.isEmpty then (none, cs2) else (some ('.' :: ds), r)
          | _ => (none, cs2)
        match fracPart, cs2 with
        | none, '.' :: _ => none
        | _, _ =>
          let frac := fracPart.getD []
          let (expPart, cs4) :=
            match cs3 with
            | e :: rest =>
              if e = 'e' || e = 'E' then
                let (sgn, rest1) :=
                  match rest with
                  | '+' :: r => (['+'], r)
                  | '-' :: r => (['-'], r)
                  | _ => (([] : List Char), rest)
                let (ds, r) := takeDigits rest1
                if ds.isEmpty then (none, cs3) else (some (e :: (sgn ++ ds)), r)
              else (none, cs3)
            | [] => (none, cs3)
          match expPart, cs3 with
          | none, e :: _ =>
            if e = 'e' || e = 'E' then none
            else some (sign ++ intPart ++ frac, cs3)
          | none, [] => some (sign ++ intPart ++ frac, cs3)
          | some ex, _ => some (sign ++ intPart ++ frac ++ ex, cs4)

mutual

/-- Strict JSON value grammar, fuel-bounded recursive descent.  Returns
the parsed value and the remaining input. -/
def parseValue : Nat → List Char → Option (JsVal × List Char)
  | 0, _ => none
  | Nat.succ fuel, cs0 =>
    let cs := skipWs cs0
    match cs with
    | [] => none
    | c :: rest =>
      if c = lbrace then
        match skipWs rest with
        | [] => none
        | d :: r2 =>
          if d = rbrace then some (JsVal.obj [], r2)
          else
            (parseObjItems fuel (d :: r2)).map (fun p => (JsVal.obj p.1, p.2))
      else if c = '[' then
        match skipWs rest with
        | [] => none
        | d :: r2 =>
          if d = ']' then some (JsVal.arr [], r2)
          else
            (parseArrItems fuel (d :: r2)).map (fun p => (JsVal.arr p.1, p.2))
      else if c = '"' then
        (parseStringBody rest).map (fun p => (JsVal.str (String.mk p.1), p.2))
      else if beginsWithL ['n', 'u', 'l', 'l'] cs then some (JsVal.null, cs.drop 4)
      else if beginsWithL ['t', 'r', 'u', 'e'] cs then some (JsVal.bool true, cs.drop 4)
      else if beginsWithL ['f', 'a', 'l', 's', 'e'] cs then some (JsVal.bool false, cs.drop 5)
      else
        match parseNumberLex cs with
        | some (lex, r) => some (JsVal.num (String.mk lex), r)
        | none => none

/-- One or more comma-separated array items followed by `]`. -/
def parseArrItems : Nat → List Char → Option (List JsVal × List Char)
  | 0, _ => none
  | Nat.succ fuel, cs =>
    match parseValue fuel cs with
    | none => none
    | some (v, r) =>
      match skipWs r with
      | [] => none
      | c :: r2 =>
        if c = ',' then (parseArrItems fuel r2).map (fun p => (v :: p.1, p.2))
        else if c = ']' then some ([v], r2)
        else none

/-- One or more comma-separated `"key": value` pairs followed by the
closing brace. -/
def parseObjItems : Nat → List Char → Option (List (String × JsVal) × List Char)
  | 0, _ => none
  | Nat.succ fuel, cs =>
    match skipWs cs with
    | [] => none
    | c :: rest =>
      if c = '"' then
        match parseStringBody rest with
        | none => none
        | some (k, r) =>
          match skipWs r with
          | [] => none
          | c2 :: r2 =>
            if c2 = ':' then
              match parseValue fuel r2 with
              | none => none
              | some (v, r3) =>
                match skipWs r3 with
                | [] => none
                | c3 :: r4 =>
                  if c3 = ',' then
                    (parseObjItems fuel r4).map (fun p => ((String.mk k, v) :: p.1, p.2))
                  else if c3 = rbrace then some ([(String.mk k, v)], r4)
                  else none
            else none
      else none

end

/-- `JSON.parse`: parse the whole input as one JSON value; anything but
trailing whitespace after the value is an error (modelled as `none`). -/
def jsonParse (s : String) : Option JsVal :=
  match parseValue (2 * s.length + 8) s.data with
  | some (v, rest) => if (skipWs rest).isEmpty then some v else none
  | none => none

/-- The structured analysis candidate produced by the response parser:
every field individually optional (list fields default to empty).  The
`structure` field of the schema is named `structure_field` because
`structure` is a Lean keyword. -/
structure AnalysisCandidate where
  core_topic : Option String
  summary : Option String
  structure_field : Option String
  takeaways : List String
  categories : List String
  verdict : Option String
  justification : Option String
deriving DecidableEq, Repr

/-- Modelled from the spec: the backend coercion of a string-valued
`categories`/`takeaways` field into a list — "attempt to parse it as a
JSON array (handles a string-encoded array such as `\x22[A, B]\x22`)".
A strict JSON array parse is attempted first; a bracketed string that is
not valid JSON is split on commas, realising the spec's parenthetical.
The backend source (`services.py`) is absent from src. -/
def lenientArrayParse (s : String) : Option (List String) :=
  match jsonParse s with
  | some (JsVal.arr xs) => some (xs.map jsToString)
  | some _ => none
  | none =>
    match trimL s.data with
    | [] => none
    | c :: rest =>
      if c = '[' && !rest.isEmpty && rest.getLast? = some ']' then
        some ((splitCommaTrimL rest.dropLast).map String.mk)
      else none

/-- Modelled from the spec: defensive coercion of a `takeaways` or
`categories` value — an array stringifies each element; a single string
is tried as a JSON array, else kept as one element, falling back to a
comma split when it contains a separator.  The backend source
(`services.py`) is absent from src. -/
def coerceToList : JsVal → List String
  | JsVal.arr xs => xs.map jsToString
  | JsVal.str s =>
    match lenientArrayParse s with
    | some items => items
    | none =>
      if s.data.contains ',' then (splitCommaTrimL s.data).map String.mk
      else [s]
  | _ => []

/-- Look up a key in a parsed JSON object. -/
def objLookup (kvs : List (String × JsVal)) (k : String) : Option JsVal :=
  (kvs.find? (fun kv => kv.1 == k)).map (fun kv => kv.2)

/-- Read a text field from a parsed JSON object. -/
def getTextField (kvs : List (String × JsVal)) (k : String) : Option String :=
  match objLookup kvs k with
  | some (JsVal.str s) => some s
  | _ => none

/-- Read a list field from a parsed JSON object with defensive
coercion. -/
def getListField (kvs : List (String × JsVal)) (k : String) : List String :=
  match objLookup kvs k with
  | some v => coerceToList v
  | none => []

/-- Modelled from the spec: parser stage 1 — strict JSON parse of the
entire input, reading each known field by name with defensive type
coercion.  The backend source (`services.py`) is absent from src. -/
def stage1 (s : String) : Option AnalysisCandidate :=
  match jsonParse s with
  | some (JsVal.obj kvs) =>
    some { core_topic := getTextField kvs "core_topic"
         , summary := getTextField kvs "summary"
         , structure_field := getTextField kvs "structure"
         , takeaways := getListField kvs "takeaways"
         , categories := getListField kvs "categories"
         , verdict := getTextField kvs "verdict"
         , justification := getTextField kvs "justification" }
  | _ => none

/-- Walk a brace span: count nested braces, ignoring braces inside
string literals (tracking escape characters), accumulating the span. -/
def spanGo : List Char → Nat → Bool → Bool → List Char → Option (List Char)
  | [], _, _, _, _ => none
  | c :: cs, depth, inStr, esc, acc =>
    if inStr then
      if esc then spanGo cs depth true false (c :: acc)
      else if c = '\\' then spanGo cs depth true true (c :: acc)
      else if c = '"' then spanGo cs depth false false (c :: acc)
      else spanGo cs depth true false (c :: acc)
    else if c = '"' then spanGo cs depth true false (c :: acc)
    else if c = lbrace then spanGo cs (depth + 1) false false (c :: acc)
    else if c = rbrace then
      if depth = 1 then some (c :: acc).reverse
      else spanGo cs (depth - 1) false false (c :: acc)
    else spanGo cs depth false false (c :: acc)

/-- Modelled from the spec: stage 2's bracket scan — the span from the
first opening brace to its matching closing brace, counting nesting and
ignoring braces inside string literals.  The backend source
(`services.py`) is absent from src. -/
def firstBalancedSpan : List Char → Option (List Char)
  | [] => none
  | c :: cs =>
    if c = lbrace then spanGo cs 1 false false [c]
    else firstBalancedSpan cs

/-- Modelled from the spec: parser stage 2 — re-run stage-1 parsing on
the first balanced brace span.  The backend source (`services.py`) is
absent from src. -/
def stage2 (s : String) : Option AnalysisCandidate :=
  (firstBalancedSpan s.data).bind (fun cs => stage1 (String.mk cs))

/-- Match one heading-style line: the line begins (case-insensitively,
after trimming) with the heading, followed by a colon; the value is the
trimmed rest of the line, when non-empty. -/
def headingValue (heading : List Char) (line : List Char) : Option (List Char) :=
  let l := trimL line
  if beginsWithL (toLowerL heading) (toLowerL l) then
    match trimL (l.drop heading.length) with
    | [] => none
    | c :: r =>
      if c = ':' then
        match trimL r with
        | [] => none
        | v => some v
      else none
  else none

/-- Find the first line matching any of the given headings. -/
def findField (headings : List (List Char)) : List (List Char) → Option (List Char)
  | [] => none
  | l :: ls =>
    match headings.findSome? (fun h => headingValue h l) with
    | some v => some v
    | none => findField headings ls

/-- Modelled from the spec: parser stage 3 — tolerant per-field
heading-style search (a line beginning with the field name, a colon,
then the value; list fields comma-split).  The exact patterns of the
backend source (`services.py`, absent from src) are unknown; headings
follow the spec's examples. -/
def stage3 (s : String) : AnalysisCandidate :=
  let lines := splitLines s.data
  let find1 := fun (hs : List String) =>
    (findField (hs.map String.data) lines).map String.mk
  let findL := fun (hs : List String) =>
    match findField (hs.map String.data) lines with
    | some v => (splitCommaTrimL v).map String.mk
    | none => []
  { core_topic := find1 ["core topic", "core_topic"]
  , summary := find1 ["summary"]
  , structure_field := find1 ["structure"]
  , takeaways := findL ["takeaways", "key takeaways"]
  , categories := findL ["categories"]
  , verdict := find1 ["verdict"]
  , justification := find1 ["justification"] }

/-- Is an optional text field present and non-empty? -/
def optNonEmpty : Option String → Bool
  | none => false
  | some s => !s.isEmpty

/-- Non-trivial content: a non-empty core topic or summary. -/
def nonTrivial (c : AnalysisCandidate) : Bool :=
  optNonEmpty c.core_topic || optNonEmpty c.summary

/-- Modelled from the spec: the fixed keyword-to-category taxonomy used
by the category smart fallback.  The concrete rule set of the backend
source (`services.py`) is absent from src; a representative fixed table
is used. -/
def keywordTaxonomy : List (String × String) :=
  [ ("program", "Programming")
  , ("software", "Programming")
  , ("code", "Programming")
  , ("tutorial", "Education")
  , ("learn", "Education")
  , ("music", "Music")
  , ("game", "Gaming")
  , ("health", "Health")
  , ("financ", "Finance")
  , ("invest", "Finance")
  , ("science", "Science")
  , ("histor", "History") ]

/-- Modelled from the spec: derive categories from free text by
case-insensitive substring match against the fixed taxonomy; when no
keyword matches, a default category is produced, realising the spec's
guarantee that at least one category is derived.  The backend source
(`services.py`) is absent from src. -/
def smartCategories (text : String) : List String :=
  let lc := toLowerL text.data
  let hits := (keywordTaxonomy.filter (fun kv => isSubL (toLowerL kv.1.data) lc)).map
    (fun kv => kv.2)
  if hits.isEmpty then ["General"] else hits

/-- The text stage 4 matches against: core topic and summary combined. -/
def combinedText (c : AnalysisCandidate) : String :=
  c.core_topic.getD "" ++ " " ++ c.summary.getD ""

/-- Modelled from the spec: parser stage 4 — when categories are still
empty but core topic or summary is non-empty, fill categories from the
smart fallback.  The backend source (`services.py`) is absent from
src. -/
def stage4 (c : AnalysisCandidate) : AnalysisCandidate :=
  if c.categories.isEmpty && nonTrivial c then
    { c with categories := smartCategories (combinedText c) }
  else c

/-- The closed verdict enumeration. -/
inductive Verdict where
  | worthWatching : Verdict
  | summarySufficient : Verdict
deriving DecidableEq, Repr

/-- The canonical text of each verdict enumeration value. -/
def verdictText : Verdict → String
  | Verdict.worthWatching => "Worth Watching"
  | Verdict.summarySufficient => "Summary Sufficient"

/-- Case-insensitive substring test for "worth". -/
def containsWorthCI (t : String) : Bool :=
  isSubL "worth".data (toLowerL t.data)

/-- Modelled from the spec: verdict normalization into the closed
enumeration — text containing "worth" (case-insensitively) maps to
WorthWatching, any other non-empty text to SummarySufficient, absent
(or empty) text stays absent.  The backend source (`services.py`) is
absent from src. -/
def normalizeVerdictE : Option String → Option Verdict
  | none => none
  | some t =>
    if containsWorthCI t then some Verdict.worthWatching
    else if t = "" then none
    else some Verdict.summarySufficient

/-- Verdict normalization at the level of stored text: the enumeration
value rendered through its canonical text. -/
def normalizeVerdict (v : Option String) : Option String :=
  (normalizeVerdictE v).map verdictText

/-- Modelled from the spec: parser stage 5 — normalize the captured
verdict text.  The backend source (`services.py`) is absent from src. -/
def stage5 (c : AnalysisCandidate) : AnalysisCandidate :=
  { c with verdict := normalizeVerdict c.verdict }

/-- Stages 1–3 in order: the first successful stage's fields win. -/
def parseStages123 (s : String) : AnalysisCandidate :=
  match stage1 s with
  | some c => c
  | none =>
    match stage2 s with
    | some c => c
    | none => stage3 s

/-- Modelled from the spec: the full response parser
`parse(raw_text) -> AnalysisCandidate` — stages 1–3, then the category
smart fallback, then verdict normalization.  The backend source
(`services.py`) is absent from src. -/
def parse (s : String) : AnalysisCandidate :=
  stage5 (stage4 (parseStages123 s))

/-- Structural validity of a candidate, per the parser contract: fields
are individually optional, except that categories must be non-empty once
non-trivial content exists. -/
def structurallyValid (c : AnalysisCandidate) : Prop :=
  nonTrivial c = true → c.categories ≠ []

/-- The frontend's `getCategories` (frontend/src/services/api.ts region,
`VideoDetail.tsx` lines 551–592), embedded from the TypeScript source:
absent or falsy input yields `[]`; an array stringifies each element; a
string is trimmed, tried as JSON (array elements stringified, a scalar
wrapped), else split on commas with items trimmed and empty segments
filtered; any other shape yields `[]`. -/
def getCategories (categories : Option JsVal) : List String :=
  match categories with
  | none => []
  | some v =>
    if jsFalsy v then []
    else
      match v with
      | JsVal.arr xs => xs.map jsToString
      | JsVal.str s =>
        if (trimL s.data).isEmpty then []
        else
          match jsonParse s with
          | some (JsVal.arr xs) => xs.map jsToString
          | some j => [jsToString j]
          | none =>
            (((splitOn ',' s.data).map trimL).map String.mk).filter
              (fun c => 0 < c.length)
      | _ => []

/-- The task snapshot exposed to pollers (`ProcessingStatus` in
frontend/src/services/api.ts lines 34–41 and the backend README
schema). -/
structure Task where
  message : String
  processed_count : Nat
  skipped_count : Nat
  failed_count : Nat
  current_video_id : Option String
  current_video_title : Option String
deriving DecidableEq, Repr

/-- A video's identifier and title as listed by VideoLister. -/
structure VideoInfo where
  videoId : String
  title : String
deriving DecidableEq, Repr

/-- Default video used only as the out-of-range value of list reads. -/
def defaultVideo : VideoInfo := { videoId := "", title := "" }

/-- The outcome of one per-video sub-step: Done, Skipped or Failed. -/
inductive VideoOutcome where
  | done : VideoOutcome
  | skipped : VideoOutcome
  | failed : VideoOutcome
deriving DecidableEq, Repr

/-- The result of VideoLister: an ordered video list, or an
InvalidPlaylistError with a description. -/
inductive ListResult where
  | ok : List VideoInfo → ListResult
  | invalidPlaylist : String → ListResult

/-- Modelled from the spec: the freshly created task — counters zero and
an initial processing message.  The backend source (`services.py`) is
absent from src. -/
def initialTask : Task :=
  { message := "Processing videos..."
  , processed_count := 0
  , skipped_count := 0
  , failed_count := 0
  , current_video_id := none
  , current_video_title := none }

/-- The fixed terminal completion message. -/
def completeMessage : String := "Processing complete."

/-- Modelled from the spec: the task state after a fatal listing
failure — a human-readable error message, counters untouched at zero.
The backend source (`services.py`) is absent from src. -/
def fatalTask (desc : String) : Task :=
  { initialTask with message := "Error: " ++ desc }

/-- Record the video currently being processed on the task. -/
def setCurrent (t : Task) (v : VideoInfo) : Task :=
  { t with current_video_id := some v.videoId
         , current_video_title := some v.title }

/-- Modelled from the spec: one per-video update — set the current
video and increment exactly the counter matching the outcome.  The
backend source (`services.py`) is absent from src. -/
def applyOutcome (t : Task) (v : VideoInfo) : VideoOutcome → Task
  | VideoOutcome.done =>
    { setCurrent t v with processed_count := t.processed_count + 1 }
  | VideoOutcome.skipped =>
    { setCurrent t v with skipped_count := t.skipped_count + 1 }
  | VideoOutcome.failed =>
    { setCurrent t v with failed_count := t.failed_count + 1 }

/-- Modelled from the spec: the successful run's trace of poll-visible
task snapshots — one snapshot before any video, one after each video in
VideoLister order, the last carrying the terminal completion message.
Every video is attempted regardless of earlier per-video outcomes.  The
backend source (`services.py`) is absent from src. -/
def runOk (f : VideoInfo → VideoOutcome) : Task → List VideoInfo → List Task
  | t, [] => [{ t with message := completeMessage }]
  | t, v :: vs => t :: runOk f (applyOutcome t v (f v)) vs

/-- Modelled from the spec: one whole orchestrator run as its trace of
poll-visible task snapshots.  A listing failure is fatal: the task goes
directly to its terminal error state with no videos attempted.  The
backend source (`services.py`) is absent from src. -/
def runPlaylist (lr : ListResult) (f : VideoInfo → VideoOutcome) : List Task :=
  match lr with
  | ListResult.ok videos => runOk f initialTask videos
  | ListResult.invalidPlaylist desc => [initialTask, fatalTask desc]

/-- The sum of the three progress counters. -/
def counterSum (t : Task) : Nat :=
  t.processed_count + t.skipped_count + t.failed_count

/-- Modelled from the spec: the process-wide task registry; `get` reads
a task by identifier, returning NotFound (`none`) for unknown
identifiers.  The backend source (`main.py`/`services.py`) is absent
from src. -/
structure TaskStore where
  tasks : List (Nat × Task)

/-- Read a task by identifier; `none` is the NotFound signal. -/
def TaskStore.get (s : TaskStore) (id : Nat) : Option Task :=
  (s.tasks.find? (fun p => p.1 == id)).map (fun p => p.2)

/-- Modelled from the spec: `complete` — the task is evicted, so the
identifier subsequently resolves to NotFound.  The backend source
(`main.py`/`services.py`) is absent from src. -/
def TaskStore.complete (s : TaskStore) (id : Nat) : TaskStore :=
  { tasks := s.tasks.filter (fun p => p.1 != id) }

/-- The processing status payload polled by the frontend
(frontend/src/services/api.ts lines 34–41). -/
structure ProcessingStatus where
  message : String
  processed_count : Nat
  skipped_count : Nat
  failed_count : Nat
  current_video_id : Option String
  current_video_title : Option String
deriving DecidableEq, Repr

/-- The App component state touched by the status-polling handler
(App.tsx): the tracked task identifier, the last processed count, the
last status snapshot, and the error banner text. -/
structure AppState where
  taskId : Option String
  lastProcessedCount : Nat
  status : Option ProcessingStatus
  errorText : Option String
deriving DecidableEq, Repr

/-- The result of one `getTaskStatus` call as seen by the handler: a
status payload, or an HTTP error with its status code. -/
inductive FetchResult where
  | ok : ProcessingStatus → FetchResult
  | err : Nat → FetchResult

/-- The frontend's `fetchStatus` handler (App.tsx lines 36–63), embedded
from the TypeScript source as a state transition.  On success the status
is stored, the last processed count is raised when it grew, and polling
stops (the task identifier and count are cleared) exactly when the
message equals the completion string; the two sequential state updates
of the source are combined into one record update.  On error, a 404
clears the tracked task identifier and count; nothing sets the error
banner.  The `fetchVideos` refreshes are side effects outside this
state. -/
def fetchStatusStep (st : AppState) : FetchResult → AppState
  | FetchResult.ok s =>
    if s.message = completeMessage then
      { st with status := some s, taskId := none, lastProcessedCount := 0 }
    else if st.lastProcessedCount < s.processed_count then
      { st with status := some s, lastProcessedCount := s.processed_count }
    else
      { st with status := some s }
  | FetchResult.err code =>
    if code = 404 then { st with taskId := none, lastProcessedCount := 0 }
    else st

theorem counterSum_applyOutcome (t : Task) (v : VideoInfo) (o : VideoOutcome) :
    counterSum (applyOutcome t v o) = counterSum t + 1 := by
  cases o <;> simp [applyOutcome, setCurrent, counterSum] <;> omega

theorem applyOutcome_current (t : Task) (v : VideoInfo) (o : VideoOutcome) :
    (applyOutcome t v o).current_video_id = some v.videoId := by
  cases o <;> rfl

theorem counterSum_initialTask : counterSum initialTask = 0 := rfl

theorem runOk_length (f : VideoInfo → VideoOutcome) (vs : List VideoInfo) :
    ∀ t : Task, (runOk f t vs).length = vs.length + 1 := by
  induction vs with
  | nil => intro t; rfl
  | cons v vs ih => intro t; simp [runOk, ih]

theorem runOk_getD_sum (f : VideoInfo → VideoOutcome) (vs : List VideoInfo) :
    ∀ (t : Task) (i : Nat), i ≤ vs.length →
      counterSum ((runOk f t vs).getD i initialTask) = counterSum t + i := by
  induction vs with
  | nil =>
    intro t i hi
    have h0 : i = 0 := Nat.le_zero.mp hi
    subst h0
    simp [runOk, counterSum]
  | cons v vs ih =>
    intro t i hi
    cases i with
    | zero => simp [runOk]
    | succ j =>
      have hj : j ≤ vs.length := Nat.le_of_succ_le_succ hi
      simp only [runOk, List.getD_cons_succ]
      rw [ih _ j hj, counterSum_applyOutcome]
      omega

theorem runOk_getD_zero_current (f : VideoInfo → VideoOutcome) (t : Task)
    (vs : List VideoInfo) :
    ((runOk f t vs).getD 0 initialTask).current_video_id = t.current_video_id := by
  cases vs <;> rfl

theorem runOk_getD_current (f : VideoInfo → VideoOutcome) (vs : List VideoInfo) :
    ∀ (t : Task) (i : Nat), i < vs.length →
      ((runOk f t vs).getD (i + 1) initialTask).current_video_id
        = some ((vs.getD i defaultVideo).videoId) := by
  induction vs with
  | nil => intro t i hi; exact absurd hi (Nat.not_lt_zero i)
  | cons v vs ih =>
    intro t i hi
    cases i with
    | zero =>
      simp only [runOk, List.getD_cons_succ, List.getD_cons_zero]
      rw [runOk_getD_zero_current, applyOutcome_current]
    | succ j =>
      have hj : j < vs.length := Nat.lt_of_succ_lt_succ hi
      simp only [runOk, List.getD_cons_succ]
      exact ih _ j hj

theorem runOk_getD_final_message (f : VideoInfo → VideoOutcome) (vs : List VideoInfo) :
    ∀ t : Task,
      ((runOk f t vs).getD vs.length initialTask).message = completeMessage := by
  induction vs with
  | nil => intro t; rfl
  | cons v vs ih =>
    intro t
    simp only [runOk, List.length_cons, List.getD_cons_succ]
    exact ih _

theorem smartCategories_ne_nil (t : String) : smartCategories t ≠ [] := by
  unfold smartCategories
  dsimp only
  split
  · simp
  · next h =>
    intro hc
    rw [hc] at h
    simp at h

theorem stage5_categories (c : AnalysisCandidate) :
    (stage5 c).categories = c.categories := rfl

theorem nonTrivial_stage5 (c : AnalysisCandidate) :
    nonTrivial (stage5 c) = nonTrivial c := rfl

theorem stage4_categories_nonempty (c : AnalysisCandidate)
    (h : nonTrivial (stage4 c) = true) : (stage4 c).categories ≠ [] := by
  by_cases hc : (c.categories.isEmpty && nonTrivial c) = true
  · unfold stage4
    rw [if_pos hc]
    exact smartCategories_ne_nil _
  · unfold stage4 at h ⊢
    rw [if_neg hc] at h ⊢
    intro hnil
    exact hc (by simp [hnil, h])

theorem parse_categories_nonempty (s : String)
    (h : nonTrivial (parse s) = true) : (parse s).categories ≠ [] := by
  unfold parse at h ⊢
  rw [nonTrivial_stage5] at h
  rw [stage5_categories]
  exact stage4_categories_nonempty _ h

theorem find_after_filter_ne (id : Nat) (l : List (Nat × Task)) :
    (l.filter (fun p => p.1 != id)).find? (fun p => p.1 == id) = none := by
  induction l with
  | nil => rfl
  | cons p l ih =>
    by_cases h : p.1 = id
    · simp [List.filter_cons, h, ih]
    · simp [List.filter_cons, List.find?_cons, h, ih]

/-- C1: for a task run over the listed videos, at every poll the three
counters sum to the number of videos attempted so far, the sum never
decreases between polls, it never exceeds the number of videos in the
playlist, it equals that total (with the terminal message) once
complete, and videos are attempted in the order returned by
VideoLister. -/
theorem task_counters_invariant (videos : List VideoInfo)
    (f : VideoInfo → VideoOutcome) :
    (∀ i, i < (runPlaylist (ListResult.ok videos) f).length →
        counterSum ((runPlaylist (ListResult.ok videos) f).getD i initialTask) = i)
    ∧ (∀ i j, i ≤ j → j < (runPlaylist (ListResult.ok videos) f).length →
        counterSum ((runPlaylist (ListResult.ok videos) f).getD i initialTask)
          ≤ counterSum ((runPlaylist (ListResult.ok videos) f).getD j initialTask))
    ∧ (∀ i, counterSum ((runPlaylist (ListResult.ok videos) f).getD i initialTask)
          ≤ videos.length)
    ∧ counterSum ((runPlaylist (ListResult.ok videos) f).getD videos.length initialTask)
        = videos.length
    ∧ ((runPlaylist (ListResult.ok videos) f).getD videos.length initialTask).message
        = completeMessage
    ∧ (∀ i, i < videos.length →
        ((runPlaylist (ListResult.ok videos) f).getD (i + 1) initialTask).current_video_id
          = some ((videos.getD i defaultVideo).videoId)) := by
  simp only [runPlaylist]
  have ha : ∀ i, i ≤ videos.length →
      counterSum ((runOk f initialTask videos).getD i initialTask) = i := by
    intro i hi
    have h := runOk_getD_sum f videos initialTask i hi
    rw [counterSum_initialTask, Nat.zero_add] at h
    exact h
  refine ⟨?_, ?_, ?_, ?_, ?_, ?_⟩
  · intro i hi
    rw [runOk_length] at hi
    exact ha i (by omega)
  · intro i j hij hj
    rw [runOk_length] at hj
    have hj' : j ≤ videos.length := by omega
    rw [ha i (le_trans hij hj'), ha j hj']
    exact hij
  · intro i
    by_cases hc : i ≤ videos.length
    · rw [ha i hc]
      exact hc
    · rw [List.getD_eq_default _ _ (by rw [runOk_length]; omega)]
      rw [counterSum_initialTask]
      exact Nat.zero_le _
  · exact ha videos.length (le_refl _)
  · exact runOk_getD_final_message f videos initialTask
  · intro i hi
    exact runOk_getD_current f videos initialTask i hi

/-- Witness for C1 at a concrete two-video playlist where both videos
are processed. -/
theorem task_counters_invariant_witness :
    counterSum ((runPlaylist (ListResult.ok [{ videoId := "a", title := "A" },
        { videoId := "b", title := "B" }]) (fun _ => VideoOutcome.done)).getD 1
        initialTask) = 1
    ∧ counterSum ((runPlaylist (ListResult.ok [{ videoId := "a", title := "A" },
        { videoId := "b", title := "B" }]) (fun _ => VideoOutcome.done)).getD 0
        initialTask)
      ≤ counterSum ((runPlaylist (ListResult.ok [{ videoId := "a", title := "A" },
        { videoId := "b", title := "B" }]) (fun _ => VideoOutcome.done)).getD 2
        initialTask)
    ∧ ((runPlaylist (ListResult.ok [{ videoId := "a", title := "A" },
        { videoId := "b", title := "B" }]) (fun _ => VideoOutcome.done)).getD 1
        initialTask).current_video_id = some "a" := by
  refine ⟨?_, ?_, ?_⟩
  · exact (task_counters_invariant _ _).1 1 (by decide)
  · exact (task_counters_invariant _ _).2.1 0 2 (by decide) (by decide)
  · exact (task_counters_invariant _ _).2.2.2.2.2 0 (by decide)

/-- C8: an invalid playlist is fatal — the run's trace is the initial
snapshot followed directly by the terminal error snapshot, whose message
is the error string and whose counters are all zero (no videos
attempted) — while per-video outcomes never abort a run: every listed
video is attempted and the run still reaches the completion message. -/
theorem fatal_listing_failure (desc : String) (f : VideoInfo → VideoOutcome)
    (videos : List VideoInfo) :
    runPlaylist (ListResult.invalidPlaylist desc) f = [initialTask, fatalTask desc]
    ∧ (fatalTask desc).message = "Error: " ++ desc
    ∧ (fatalTask desc).processed_count = 0
    ∧ (fatalTask desc).skipped_count = 0
    ∧ (fatalTask desc).failed_count = 0
    ∧ (runPlaylist (ListResult.ok videos) f).length = videos.length + 1
    ∧ counterSum ((runPlaylist (ListResult.ok videos) f).getD videos.length
        initialTask) = videos.length
    ∧ ((runPlaylist (ListResult.ok videos) f).getD videos.length
        initialTask).message = completeMessage := by
  simp only [runPlaylist]
  refine ⟨trivial, rfl, rfl, rfl, rfl, runOk_length f videos initialTask, ?_,
    runOk_getD_final_message f videos initialTask⟩
  have h := runOk_getD_sum f videos initialTask videos.length (le_refl _)
  rw [counterSum_initialTask, Nat.zero_add] at h
  exact h

/-- C5 counterexample: immediately after a fatal listing failure the
terminal task message is the error string, not the fixed completion
string "Processing complete." as the claim states. -/
theorem fatal_message_not_complete :
    ((runPlaylist (ListResult.invalidPlaylist "Invalid playlist ID")
        (fun _ => VideoOutcome.done)).getD 1 initialTask).message
      = "Error: Invalid playlist ID"
    ∧ ((runPlaylist (ListResult.invalidPlaylist "Invalid playlist ID")
        (fun _ => VideoOutcome.done)).getD 1 initialTask).message
      ≠ completeMessage := by
  refine ⟨by decide, by decide⟩

/-- C5 (amended): after the last video the orchestrator sets the message
to exactly "Processing complete."; after a fatal listing failure it sets
an error string instead; and the polling caller, on a successful status
response while tracking a task, stops polling exactly when the observed
message equals the completion string. -/
theorem terminal_message_and_poll_stop :
    (∀ (videos : List VideoInfo) (f : VideoInfo → VideoOutcome),
        ((runPlaylist (ListResult.ok videos) f).getD videos.length
          initialTask).message = completeMessage)
    ∧ (∀ (desc : String) (f : VideoInfo → VideoOutcome),
        ((runPlaylist (ListResult.invalidPlaylist desc) f).getD 1
          initialTask).message = "Error: " ++ desc)
    ∧ (∀ (st : AppState) (s : ProcessingStatus) (tid : String),
        st.taskId = some tid →
          ((fetchStatusStep st (FetchResult.ok s)).taskId = none
            ↔ s.message = completeMessage)) := by
  refine ⟨?_, ?_, ?_⟩
  · intro videos f
    simp only [runPlaylist]
    exact runOk_getD_final_message f videos initialTask
  · intro desc f
    rfl
  · intro st s tid h
    by_cases hm : s.message = completeMessage
    · simp [fetchStatusStep, hm]
    · by_cases hp : st.lastProcessedCount < s.processed_count
      · simp [fetchStatusStep, hm, hp, h]
      · simp [fetchStatusStep, hm, hp, h]

/-- Witness for the amended C5: a tracked task is cleared exactly on the
completion message. -/
theorem terminal_message_and_poll_stop_witness :
    (fetchStatusStep
        { taskId := some "t1", lastProcessedCount := 0, status := none,
          errorText := none }
        (FetchResult.ok
          { message := completeMessage, processed_count := 3, skipped_count := 1,
            failed_count := 0, current_video_id := none,
            current_video_title := none })).taskId = none :=
  (terminal_message_and_poll_stop.2.2 _ _ "t1" rfl).mpr rfl

/-- C4: after completion the task is evicted, so a status lookup by its
identifier returns the NotFound signal rather than task state, and the
frontend poller treats an HTTP 404 as an alternate terminal signal —
clearing its tracked task identifier and processed count while leaving
the status snapshot and error banner untouched. -/
theorem evicted_task_not_found :
    (∀ (s : TaskStore) (id : Nat), (s.complete id).get id = none)
    ∧ (∀ st : AppState,
        (fetchStatusStep st (FetchResult.err 404)).taskId = none
        ∧ (fetchStatusStep st (FetchResult.err 404)).lastProcessedCount = 0
        ∧ (fetchStatusStep st (FetchResult.err 404)).status = st.status
        ∧ (fetchStatusStep st (FetchResult.err 404)).errorText = st.errorText) := by
  constructor
  · intro s id
    unfold TaskStore.get TaskStore.complete
    simp only [find_after_filter_ne, Option.map_none']
  · intro st
    refine ⟨?_, ?_, ?_, ?_⟩ <;> simp [fetchStatusStep]

/-- C2: the response parser is total — modelled as a total Lean function
on every string, so it never raises — and always returns a structurally
valid record: every field individually optional, with categories
non-empty once non-trivial content exists. -/
theorem parse_total_structurally_valid (s : String) :
    structurallyValid (parse s) :=
  fun h => parse_categories_nonempty s h

/-- Witness for C2 on a concrete non-JSON input with non-trivial
content. -/
theorem parse_total_structurally_valid_witness :
    (parse "Summary: great insights").categories ≠ [] :=
  parse_total_structurally_valid "Summary: great insights" (by decide)

/-- C7: when stages 1–3 leave categories empty but the core topic or
summary is non-empty, stage 4 derives at least one category from the
fixed keyword taxonomy; hence every parse result with non-trivial
content has non-empty categories. -/
theorem smart_fallback_categories :
    (∀ c : AnalysisCandidate, c.categories = [] → nonTrivial c = true →
        (stage4 c).categories ≠ [])
    ∧ (∀ s : String, nonTrivial (parse s) = true → (parse s).categories ≠ []) := by
  constructor
  · intro c hc hnt
    have h : (c.categories.isEmpty && nonTrivial c) = true := by simp [hc, hnt]
    unfold stage4
    rw [if_pos h]
    exact smartCategories_ne_nil (combinedText c)
  · intro s
    exact parse_categories_nonempty s

/-- Witness for C7 at a concrete candidate and a concrete raw text. -/
theorem smart_fallback_categories_witness :
    (stage4 (⟨some "X", none, none, [], [], none, none⟩ : AnalysisCandidate)).categories ≠ []
    ∧ (parse "Core topic: Lean theorem proving").categories ≠ [] :=
  ⟨smart_fallback_categories.1 _ rfl (by decide),
   smart_fallback_categories.2 _ (by decide)⟩

/-- C3: verdict normalization maps free text into the closed enumeration
by a case-insensitive substring test — text containing "worth" yields
WorthWatching, any other non-empty text yields SummarySufficient, and an
absent verdict stays absent. -/
theorem verdict_normalization_cases :
    (∀ t : String, containsWorthCI t = true →
        normalizeVerdictE (some t) = some Verdict.worthWatching)
    ∧ (∀ t : String, containsWorthCI t = false → t ≠ "" →
        normalizeVerdictE (some t) = some Verdict.summarySufficient)
    ∧ normalizeVerdictE none = none := by
  refine ⟨?_, ?_, rfl⟩
  · intro t h
    simp [normalizeVerdictE, h]
  · intro t h hne
    simp [normalizeVerdictE, h, hne]

/-- Witness for C3 on concrete verdict texts of both shapes. -/
theorem verdict_normalization_cases_witness :
    normalizeVerdictE (some "Definitely Worth Watching")
        = some Verdict.worthWatching
    ∧ normalizeVerdictE (some "nah") = some Verdict.summarySufficient :=
  ⟨verdict_normalization_cases.1 _ (by decide),
   verdict_normalization_cases.2.1 _ (by decide) (by decide)⟩

/-- C9: verdict normalization is total on all verdict texts (including
absent) and idempotent, and the canonical texts of the enumeration
values map back to themselves. -/
theorem verdict_normalization_idempotent :
    (∀ x : Option String,
        normalizeVerdict (normalizeVerdict x) = normalizeVerdict x)
    ∧ (∀ v : Verdict,
        normalizeVerdict (some (verdictText v)) = some (verdictText v)) := by
  constructor
  · intro x
    cases x with
    | none => rfl
    | some t =>
      by_cases h1 : containsWorthCI t = true
      · have h : normalizeVerdict (some t) = some "Worth Watching" := by
          simp [normalizeVerdict, normalizeVerdictE, h1, verdictText]
        rw [h]
        decide
      · by_cases h2 : t = ""
        · have h : normalizeVerdict (some t) = none := by
            subst h2
            decide
          rw [h]
          rfl
        · have h : normalizeVerdict (some t) = some "Summary Sufficient" := by
            simp [normalizeVerdict, normalizeVerdictE, h1, h2, verdictText]
          rw [h]
          decide
  · intro v
    cases v <;> decide

/-- C6: a string-valued categories (or takeaways) field is coerced by
first attempting a JSON-array interpretation; failing that it is kept
whole as a single element unless it contains a comma, in which case it
is comma-split; in particular Scenario A's raw text parses with
categories ["A", "B"]. -/
theorem string_categories_coercion :
    (parse "\x7b\"core_topic\":\"X\",\"categories\":\"[A, B]\"\x7d").categories
        = ["A", "B"]
    ∧ (parse "\x7b\"core_topic\":\"X\",\"categories\":\"[A, B]\"\x7d").core_topic
        = some "X"
    ∧ (∀ s : String, lenientArrayParse s = none → s.data.contains ',' = false →
        coerceToList (JsVal.str s) = [s])
    ∧ (∀ s : String, lenientArrayParse s = none → s.data.contains ',' = true →
        coerceToList (JsVal.str s) = (splitCommaTrimL s.data).map String.mk) := by
  refine ⟨by decide, by decide, ?_, ?_⟩
  · intro s h hc
    simp only [coerceToList, h]
    rw [hc]
    simp
  · intro s h hc
    simp only [coerceToList, h]
    rw [hc]
    simp

/-- Witness for C6 on concrete strings for the single-element and
comma-split fallbacks. -/
theorem string_categories_coercion_witness :
    coerceToList (JsVal.str "hello") = ["hello"]
    ∧ coerceToList (JsVal.str "a, b") = ["a", "b"] := by
  constructor
  · exact string_categories_coercion.2.2.1 "hello" (by decide) (by decide)
  · exact string_categories_coercion.2.2.2 "a, b" (by decide) (by decide)

/-- C10 counterexample: for a categories value that is an array holding
the empty string, getCategories returns an array containing the empty
string, so the returned array is not always free of empty strings. -/
theorem getCategories_empty_string_member :
    "" ∈ getCategories (some (JsVal.arr [JsVal.str ""])) := by decide

/-- C10 (amended): getCategories is total — a total Lean function
returning a string array on every input shape — and in the comma-split
branch (any string input that fails JSON parsing) it trims each item and
filters out empty segments, so that branch never yields an empty string
element; other branches may, as the counterexample records. -/
theorem getCategories_comma_split_no_empty (s : String)
    (h : (jsonParse s).isNone = true) :
    "" ∉ getCategories (some (JsVal.str s)) := by
  have hnone : jsonParse s = none := Option.isNone_iff_eq_none.mp h
  intro hmem
  by_cases hf : jsFalsy (JsVal.str s) = true
  · simp [getCategories, hf] at hmem
  · by_cases ht : (trimL s.data).isEmpty = true
    · simp [getCategories, hf, ht] at hmem
    · simp [getCategories, hf, ht, hnone, List.mem_filter] at hmem

/-- Witness for the amended C10 on a concrete comma-separated string
with an empty segment. -/
theorem getCategories_comma_split_no_empty_witness :
    (jsonParse "a,,b").isNone = true
    ∧ "" ∉ getCategories (some (JsVal.str "a,,b")) :=
  ⟨by decide, getCategories_comma_split_no_empty "a,,b" (by decide)⟩

end VIA
